import Mathlib

/-!
Shallow embedding of `lib/metricsd.js` (node-metricsd).

JS strings are modelled as `List Char`; hrtime-derived millisecond
quantities as `ℚ` (operations receive the current instant `now` explicitly);
integral metric values as `ℤ`; possibly-`undefined` values as `Option`.
Side effects (datagrams handed to the socket, log output, socket and timer
lifecycle) are made explicit as state records or returned event lists.
-/

namespace Metricsd

/-- Characters matched by the JS regex `\s` (the cases relevant here). -/
def isJsWhitespace (c : Char) : Bool :=
  c = ' ' || c = '\t' || c = '\n' || c = '\r' || c = '\x0b' || c = '\x0c' || c = '\u00A0'

/-- `name.replace(/\s/g, "_")` acts on each whitespace character separately. -/
def sanitizeChar (c : Char) : Char :=
  if isJsWhitespace c then '_' else c

def sanitize (l : List Char) : List Char :=
  l.map sanitizeChar

/-- Shorthand: the character list of a string literal. -/
def str (s : String) : List Char :=
  s.data

/-- `prefix + "." + name` when a truthy prefix is configured
(metricsd.js lines 212-217). -/
def prefixApply (pfx : Option (List Char)) (name : List Char) : List Char :=
  match pfx with
  | some p => if p = [] then name else p ++ '.' :: name
  | none => name

/-- `formatMetricName` (metricsd.js lines 211-221): `undefined` on a falsy
name, otherwise prepend the prefix and replace whitespace by underscores. -/
def formatMetricName (pfx : Option (List Char)) (name : List Char) : Option (List Char) :=
  if name = [] then none
  else some (sanitize (prefixApply pfx name))

/-- JS `\w` word characters (`[A-Za-z0-9_]`). -/
def isWordChar (c : Char) : Bool :=
  c.isAlphanum || c = '_'

/-- Number of matches of the JS regex `/%\w/g`, scanning left to right
without overlap (metricsd.js line 277). -/
def countPlaceholders : List Char → Nat
  | [] => 0
  | c :: rest =>
    if c = '%' then
      match rest with
      | [] => 0
      | c2 :: rest2 =>
        if isWordChar c2 then countPlaceholders rest2 + 1
        else countPlaceholders (c2 :: rest2)
    else countPlaceholders rest

/-- `util.format` of 2012-era node, on already-stringified arguments: scan
for `%s`, `%d`, `%j` and `%%`; the first three consume an argument when one
remains (for the arguments this library feeds in — metric names and decimal
renderings of numbers — all three specifiers yield the argument's own
text), `%%` renders as `%`, and a specifier with no argument left stays
literal.  Returns the output and the unconsumed arguments. -/
def utilFormatAux : List Char → List (List Char) → List Char × List (List Char)
  | [], args => ([], args)
  | c :: rest, args =>
    if c = '%' then
      match rest with
      | [] => (['%'], args)
      | c2 :: rest2 =>
        if c2 = '%' then
          let r := utilFormatAux rest2 args
          ('%' :: r.1, r.2)
        else if c2 = 's' || c2 = 'd' || c2 = 'j' then
          match args with
          | a :: more =>
            let r := utilFormatAux rest2 more
            (a ++ r.1, r.2)
          | [] =>
            let r := utilFormatAux rest2 args
            ('%' :: c2 :: r.1, r.2)
        else
          let r := utilFormatAux (c2 :: rest2) args
          ('%' :: r.1, r.2)
    else
      let r := utilFormatAux rest args
      (c :: r.1, r.2)

/-- `util.format`: leftover arguments are appended, each preceded by a
space. -/
def utilFormat (fmt : List Char) (args : List (List Char)) : List Char :=
  let r := utilFormatAux fmt args
  r.1 ++ (r.2.map (fun a => ' ' :: a)).flatten

/-- How `%s` renders a possibly-`undefined` string. -/
def jsStr : Option (List Char) → List Char
  | some s => s
  | none => str "undefined"

/-- Decimal rendering of an integer value. -/
def intStr (v : ℤ) : List Char :=
  (toString v).data

/-- `format(fmt, arguments)` (metricsd.js lines 250-284) at the update-call
shape `format("%s:...", [name, value])`: the placeholder count is taken
from the NAME (the first element of `arguments`), the name is formatted
with the arguments it consumes and then prefixed/sanitized, and the
remaining arguments are applied to `fmt` together with the name. -/
def format2 (pfx : Option (List Char)) (fmt name : List Char) (value : ℤ) : List Char :=
  let k := countPlaceholders name
  let name1 := utilFormat name (if k = 0 then [] else [intStr value])
  let fname := jsStr (formatMetricName pfx name1)
  utilFormat fmt (fname :: if k = 0 then [intStr value] else [])

/-- `format(fmt, arguments)` at the delete-call shape `[name]` only. -/
def formatDelete (pfx : Option (List Char)) (fmt name : List Char) : List Char :=
  let name1 := utilFormat name []
  utilFormat fmt [jsStr (formatMetricName pfx name1)]

/-- `format` applied to a single (possibly absent) plain name argument, the
shape used by the named-entity constructors and `API.mark`. -/
def format1 (pfx : Option (List Char)) (arg : Option (List Char)) : Option (List Char) :=
  arg.bind (formatMetricName pfx)

/-!  ## Transport manager and write path (metricsd.js lines 31-248) -/

/-- `str.lastIndexOf("\n")`, as the greatest newline index when any. -/
def lastIndexOfNl : List Char → Option Nat
  | [] => none
  | c :: rest =>
    match lastIndexOfNl rest with
    | some i => some (i + 1)
    | none => if c = '\n' then some 0 else none

/-- JS `lastIndexOf` result: `-1` when the character is absent. -/
def jsLastIndexOfNl (l : List Char) : Int :=
  match lastIndexOfNl l with
  | some i => (i : Int)
  | none => -1

/-- The trailing-newline adjustment of `API._send` (lines 228-231):
`if (str.lastIndexOf("\n") !== str.length - 1) str = str + "\n"`. -/
def nlAdjust (l : List Char) : List Char :=
  if jsLastIndexOfNl l ≠ (l.length : Int) - 1 then l ++ ['\n'] else l

/-- The mutable state of one metrics instance, with the observable effects
(sent datagrams, log lines) recorded explicitly.  `ephemeral`, `gcTimer`
and `closeTimeout` model `ephemeralSocket`, the `setInterval` handle and
the `setTimeout` handle; `closeTimeout` carries its scheduled fire time. -/
structure MState where
  enabled : Bool
  log : Bool
  pfx : Option (List Char)
  providedSocket : Bool
  timeout : ℚ
  ephemeral : Bool
  gcTimer : Bool
  closeTimeout : Option ℚ
  lastUse : Option ℚ
  sent : List (List Char)
  logged : List (List Char)
deriving DecidableEq

/-- The factory `module.exports = function(options)` (lines 31-47): fresh
instance state (`options.prefix || null` and `options.timeout || 1000` are
applied by the caller of this definition). -/
def metricsInit (pfx : Option (List Char)) (enabled log : Bool) (timeout : ℚ)
    (providedSocket : Bool) : MState :=
  { enabled := enabled, log := log, pfx := pfx, providedSocket := providedSocket,
    timeout := timeout, ephemeral := false, gcTimer := false, closeTimeout := none,
    lastUse := none, sent := [], logged := [] }

/-- `closeSocket` (lines 52-62): closes the ephemeral socket, if any, and
clears the forced-close timeout — but not the gc interval. -/
def closeSocketM (s : MState) : MState :=
  if s.ephemeral then { s with ephemeral := false, closeTimeout := none } else s

/-- `removeTimer` (lines 67-72): clears the gc interval. -/
def removeTimerM (s : MState) : MState :=
  if s.gcTimer then { s with gcTimer := false } else s

/-- `gcSocket` (lines 77-82) running at instant `now` (`Date.now() - null`
coerces `null` to `0` in JS, hence `getD 0`). -/
def gcSocketM (s : MState) (now : ℚ) : MState :=
  if now - s.lastUse.getD 0 > s.timeout then removeTimerM (closeSocketM s) else s

/-- `getSocket` (lines 84-118): the provided socket when present; otherwise
lazily create the ephemeral socket together with the 250ms gc interval and
the one-shot forced close at `10 * timeout`, and stamp `lastUse`. -/
def getSocketM (s : MState) (now : ℚ) : MState :=
  if s.providedSocket then s
  else
    let s1 :=
      if s.ephemeral then s
      else { s with ephemeral := true, gcTimer := true,
                    closeTimeout := some (now + 10 * s.timeout) }
    { s1 with lastUse := some now }

/-- The forced-close `setTimeout` firing (line 107): it runs `closeSocket`
and nothing else. -/
def fireForcedClose (s : MState) : MState :=
  closeSocketM s

/-- `API.close` (lines 126-129). -/
def apiCloseM (s : MState) : MState :=
  removeTimerM (closeSocketM s)

/-- `API._send` (lines 223-240): optional log line, trailing-newline
adjustment, socket acquisition, transmission. -/
def sendM (s : MState) (strLine : List Char) (now : ℚ) : MState :=
  let s1 := if s.log then { s with logged := s.logged ++ [str "metric=" ++ strLine] } else s
  let line := nlAdjust strLine
  let s2 := getSocketM s1 now
  { s2 with sent := s2.sent ++ [line] }

/-- `API.write` (lines 242-248): a no-op when disabled. -/
def writeM (s : MState) (metric : List Char) (now : ℚ) : MState :=
  if s.enabled then sendM s metric now else s

/-!  ## Metric emitters (metricsd.js lines 286-314, 652-680) -/

def counterUpdateLine (pfx : Option (List Char)) (name : List Char) (v : ℤ) : List Char :=
  format2 pfx (str "%s:%s|c") name v

def gaugeUpdateLine (pfx : Option (List Char)) (name : List Char) (v : ℤ) : List Char :=
  format2 pfx (str "%s:%s|g") name v

def histogramUpdateLine (pfx : Option (List Char)) (name : List Char) (v : ℤ) : List Char :=
  format2 pfx (str "%s:%s|h") name v

/-- `API.updateCounter` (lines 302-305). -/
def updateCounterM (s : MState) (name : List Char) (v : ℤ) (now : ℚ) : MState :=
  writeM s (counterUpdateLine s.pfx name v) now

/-- `API.updateGauge` (lines 307-309). -/
def updateGaugeM (s : MState) (name : List Char) (v : ℤ) (now : ℚ) : MState :=
  writeM s (gaugeUpdateLine s.pfx name v) now

/-- `API.updateHistogram` (lines 311-314). -/
def updateHistogramM (s : MState) (name : List Char) (v : ℤ) (now : ℚ) : MState :=
  writeM s (histogramUpdateLine s.pfx name v) now

/-- `API.deleteCounter` (lines 286-288). -/
def deleteCounterM (s : MState) (name : List Char) (now : ℚ) : MState :=
  writeM s (formatDelete s.pfx (str "%s:delete|c") name) now

/-- `API.deleteGauge` (lines 290-292). -/
def deleteGaugeM (s : MState) (name : List Char) (now : ℚ) : MState :=
  writeM s (formatDelete s.pfx (str "%s:delete|g") name) now

/-- `API.deleteHistogram` (lines 294-296). -/
def deleteHistogramM (s : MState) (name : List Char) (now : ℚ) : MState :=
  writeM s (formatDelete s.pfx (str "%s:delete|h") name) now

/-- `API.deleteMeter` (lines 298-300). -/
def deleteMeterM (s : MState) (name : List Char) (now : ℚ) : MState :=
  writeM s (formatDelete s.pfx (str "%s:delete") name) now

/-- `API.mark` (lines 674-680): write the bare formatted name, if any. -/
def markM (s : MState) (name : Option (List Char)) (now : ℚ) : MState :=
  match format1 s.pfx name with
  | some n => writeM s n now
  | none => s

/-- `API.inc` (lines 652-658); `value || 1` maps `0` to `1`. -/
def incM (s : MState) (name : List Char) (v : ℤ) (now : ℚ) : MState :=
  updateCounterM s name (if v = 0 then 1 else v) now

/-- `API.dec` (lines 663-669); `(value && 0 - value) || -1` maps `0` to `-1`. -/
def decM (s : MState) (name : List Char) (v : ℤ) (now : ℚ) : MState :=
  updateCounterM s name (if v = 0 then -1 else -v) now

/-!  ## Named-entity constructors and facade factories
(metricsd.js lines 323-442, 607-647) -/

/-- The `Counter` constructor (lines 323-335): formats its argument, throws
`"a name is required"` when the result is falsy, else stores the name. -/
def counterNew (pfx : Option (List Char)) (arg : Option (List Char)) :
    Except (List Char) (List Char) :=
  match format1 pfx arg with
  | none => Except.error (str "a name is required")
  | some n => Except.ok n

/-- The `Gauge` constructor (lines 368-380), identical in shape. -/
def gaugeNew (pfx : Option (List Char)) (arg : Option (List Char)) :
    Except (List Char) (List Char) :=
  match format1 pfx arg with
  | none => Except.error (str "a name is required")
  | some n => Except.ok n

/-- The `Histogram` constructor (lines 399-411). -/
def histogramNew (pfx : Option (List Char)) (arg : Option (List Char)) :
    Except (List Char) (List Char) :=
  match format1 pfx arg with
  | none => Except.error (str "a name is required")
  | some n => Except.ok n

/-- The `Meter` constructor (lines 430-442). -/
def meterNew (pfx : Option (List Char)) (arg : Option (List Char)) :
    Except (List Char) (List Char) :=
  match format1 pfx arg with
  | none => Except.error (str "a name is required")
  | some n => Except.ok n

/-- `API.count` (lines 616-620): `new Counter(format(name))` in try/catch,
returning `undefined` on a construction error. -/
def countFacade (pfx : Option (List Char)) (arg : Option (List Char)) :
    Option (List Char) :=
  match counterNew pfx (format1 pfx arg) with
  | Except.ok n => some n
  | Except.error _ => none

/-- `API.gauge` (lines 625-629): `Gauge.apply(null, arguments)` in
try/catch.  Called without `new`, `Gauge` formats once, throws on a falsy
result, then re-enters itself as `new Gauge(formattedName)`, formatting a
second time. -/
def gaugeFacade (pfx : Option (List Char)) (arg : Option (List Char)) :
    Option (List Char) :=
  match gaugeNew pfx arg with
  | Except.error _ => none
  | Except.ok n =>
    match gaugeNew pfx (some n) with
    | Except.ok n2 => some n2
    | Except.error _ => none

/-- `API.histogram` (lines 634-638), same shape as `API.gauge`. -/
def histogramFacade (pfx : Option (List Char)) (arg : Option (List Char)) :
    Option (List Char) :=
  match histogramNew pfx arg with
  | Except.error _ => none
  | Except.ok n =>
    match histogramNew pfx (some n) with
    | Except.ok n2 => some n2
    | Except.error _ => none

/-- `API.meter` (lines 643-647), same shape as `API.gauge`. -/
def meterFacade (pfx : Option (List Char)) (arg : Option (List Char)) :
    Option (List Char) :=
  match meterNew pfx arg with
  | Except.error _ => none
  | Except.ok n =>
    match meterNew pfx (some n) with
    | Except.ok n2 => some n2
    | Except.error _ => none

/-- `Counter.prototype.inc` (lines 340-344) for a counter whose stored
name is `storedName`. -/
def counterIncM (s : MState) (storedName : List Char) (v : ℤ) (now : ℚ) : MState :=
  updateCounterM s storedName (if v = 0 then 1 else v) now

/-- `Gauge.prototype.update` (lines 392-394). -/
def gaugeInstUpdateM (s : MState) (storedName : List Char) (v : ℤ) (now : ℚ) : MState :=
  updateGaugeM s storedName v now

/-!  ## Timer (metricsd.js lines 461-605) -/

/-- Timer state.  The `null` initial timestamps of the constructor are
represented by `0`; `start` overwrites them immediately. -/
structure Timer where
  name : Option (List Char)
  startTime : ℚ
  lapStartTime : ℚ
  laps : List (List Char × ℚ)
  stopped : Bool
  paused : Bool
  pauseTime : Option ℚ
  pausedDuration : ℚ
deriving DecidableEq

/-- `Timer.prototype.start` (lines 533-540). -/
def Timer.start (t : Timer) (now : ℚ) : Timer :=
  { t with startTime := now, lapStartTime := now, stopped := false,
           paused := false, pauseTime := none, pausedDuration := 0 }

/-- The `Timer` constructor (lines 469-500): format the name (no error is
raised on a falsy result), initialise the fields, start immediately. -/
def Timer.new (pfx : Option (List Char)) (nameArg : Option (List Char)) (now : ℚ) : Timer :=
  Timer.start
    { name := format1 pfx nameArg, startTime := 0, lapStartTime := 0, laps := [],
      stopped := false, paused := false, pauseTime := none, pausedDuration := 0 } now

/-- `Timer.prototype.resume` (lines 582-592).  (When `paused` holds,
`pauseTime` is always set; `getD 0` mirrors `process.hrtime(null)` being
the current absolute instant, and is unreachable anyway.) -/
def Timer.resume (t : Timer) (now : ℚ) : Timer × Option ℚ :=
  if t.paused then
    let elapsed := now - t.pauseTime.getD 0
    ({ t with paused := false, pausedDuration := t.pausedDuration + elapsed }, some elapsed)
  else (t, none)

/-- `Timer.prototype.pause` (lines 568-575). -/
def Timer.pause (t : Timer) (now : ℚ) : Timer × Option ℚ :=
  if t.paused then (t, none)
  else ({ t with paused := true, pauseTime := some now },
        some (now - t.startTime - t.pausedDuration))

/-- `Timer.prototype.stop` (lines 545-563): returns the new state, the JS
return value, and the `API.updateHistogram(name, Math.round(elapsed))`
calls performed (`round` on `ℚ` agrees with `Math.round`, which rounds
half-way cases toward positive infinity). -/
def Timer.stop (t : Timer) (nameArg : Option (List Char)) (now : ℚ)
    (pfx : Option (List Char)) : Timer × Option ℚ × List (List Char × ℤ) :=
  let name :=
    match format1 pfx nameArg with
    | some n => some n
    | none => t.name
  if t.stopped then (t, none, [])
  else
    let t1 := { t with stopped := true }
    let elapsed0 := now - t1.startTime
    let t2 := (t1.resume now).1
    let elapsed := elapsed0 - t2.pausedDuration
    (t2, some elapsed,
      match name with
      | some n => [(n, round elapsed)]
      | none => [])

/-- `Timer.prototype.lap` (lines 505-521), including
`Timer.prototype.resetLapTimer` (lines 526-528). -/
def Timer.lap (t : Timer) (nameArg : Option (List Char)) (now : ℚ)
    (pfx : Option (List Char)) : Timer × ℚ × List (List Char × ℤ) :=
  let name := format1 pfx nameArg
  let lapTime := now - t.lapStartTime
  let t1 := { t with lapStartTime := now, laps := t.laps ++ [(name.getD [], lapTime)] }
  (t1, lapTime,
    match name with
    | some n => [(n, round lapTime)]
    | none => [])

/-- The observable outcome of invoking a callback produced by
`Timer.prototype.wrap` (lines 597-605): the inner `stop()` runs with no
explicit name, the original callback receives the invocation arguments
unchanged and computes `callbackRet`, and the wrapper — whose JS body has
no return statement — itself returns `undefined` (`wrapperRet = none`). -/
structure WrapResult (α β : Type) where
  timer : Timer
  emissions : List (List Char × ℤ)
  callbackArgs : α
  callbackRet : β
  wrapperRet : Option β

def Timer.wrapInvoke {α β : Type} (t : Timer) (f : α → β) (args : α) (now : ℚ)
    (pfx : Option (List Char)) : WrapResult α β :=
  let r := t.stop none now pfx
  { timer := r.1, emissions := r.2.2, callbackArgs := args,
    callbackRet := f args, wrapperRet := none }

/-!  ## C1: pause/resume round-trip arithmetic of `stop` -/

/-- C1: a timer started at `t0`, paused at `t1`, resumed at `t2` and first
stopped at `t3` returns `(t3 - t0) - (t2 - t1)` from `stop`; when `stop`
is called while still paused, the open pause interval is implicitly
resumed at `t3`, giving `(t3 - t0) - (t3 - t1)`. -/
theorem c1_pause_resume_stop (t : Timer) (pfx : Option (List Char)) (t0 t1 t2 t3 : ℚ) :
    (((((t.start t0).pause t1).1.resume t2).1.stop none t3 pfx).2.1
        = some ((t3 - t0) - (t2 - t1)))
    ∧ ((((t.start t0).pause t1).1.stop none t3 pfx).2.1
        = some ((t3 - t0) - (t3 - t1))) := by
  constructor <;>
  · simp only [Timer.start, Timer.pause, Timer.resume, Timer.stop, format1,
      Option.bind, Option.getD, if_neg, if_pos]
    simp

/-!  ## C2: `stop` is idempotent -/

/-- C2: on a not-yet-stopped timer, `stop` returns a present value, emits
at most one histogram update and leaves the timer stopped; on an
already-stopped timer, `stop` changes nothing, emits nothing and returns
an absent value (`none`, distinguishable from `some 0`). -/
theorem c2_stop_idempotent (t : Timer) (nameArg : Option (List Char))
    (pfx : Option (List Char)) (now : ℚ) :
    (t.stopped = false →
      ((t.stop nameArg now pfx).2.1.isSome = true ∧
        (t.stop nameArg now pfx).2.2.length ≤ 1 ∧
        (t.stop nameArg now pfx).1.stopped = true)) ∧
    (t.stopped = true → t.stop nameArg now pfx = (t, none, [])) := by
  constructor
  · intro h
    simp only [Timer.stop, h, Bool.false_eq_true, if_false]
    refine ⟨rfl, ?_, ?_⟩
    · cases format1 pfx nameArg <;> cases t.name <;> simp
    · simp only [Timer.resume]
      by_cases hp : t.paused = true <;> simp [hp]
  · intro h
    simp [Timer.stop, h]

/-- Witness for `c2_stop_idempotent`: a concrete timer stopped twice. -/
theorem c2_stop_idempotent_witness :
    (((Timer.new none (some (str "thingTime")) 0).stop none 10 none).2.1.isSome = true ∧
      ((Timer.new none (some (str "thingTime")) 0).stop none 10 none).2.2.length ≤ 1 ∧
      ((Timer.new none (some (str "thingTime")) 0).stop none 10 none).1.stopped = true) ∧
    ((((Timer.new none (some (str "thingTime")) 0).stop none 10 none).1.stop none 12 none)
      = ((((Timer.new none (some (str "thingTime")) 0).stop none 10 none).1), none, [])) :=
  ⟨(c2_stop_idempotent (Timer.new none (some (str "thingTime")) 0) none none 10).1 (by decide),
   (c2_stop_idempotent ((Timer.new none (some (str "thingTime")) 0).stop none 10 none).1
      none none 12).2 (by decide)⟩

/-!  ## C3: the invariant `paused → ¬stopped` -/

/-- One operation of the Timer API, tagged with the instant at which it
runs.  `wrapCall` is the invocation of a `wrap`-produced callback, whose
only timer effect is `stop()` with no explicit name. -/
inductive TOp where
  | start (now : ℚ)
  | lap (nameArg : Option (List Char)) (now : ℚ)
  | pause (now : ℚ)
  | resume (now : ℚ)
  | stop (nameArg : Option (List Char)) (now : ℚ)
  | wrapCall (now : ℚ)
deriving DecidableEq

def applyTOp (pfx : Option (List Char)) (t : Timer) : TOp → Timer
  | TOp.start now => t.start now
  | TOp.lap nameArg now => (t.lap nameArg now pfx).1
  | TOp.pause now => (t.pause now).1
  | TOp.resume now => (t.resume now).1
  | TOp.stop nameArg now => (t.stop nameArg now pfx).1
  | TOp.wrapCall now => (t.stop none now pfx).1

def runTOps (pfx : Option (List Char)) (t : Timer) (ops : List TOp) : Timer :=
  ops.foldl (applyTOp pfx) t

/-- C3 counterexample: the code's `pause` does not check `stopped`, so
`stop` followed by `pause` reaches a state with `paused ∧ stopped`,
violating the claimed invariant on a reachable state. -/
theorem c3_counterexample :
    (runTOps none (Timer.new none (some (str "t")) 0)
        [TOp.stop none 1, TOp.pause 2]).paused = true ∧
    (runTOps none (Timer.new none (some (str "t")) 0)
        [TOp.stop none 1, TOp.pause 2]).stopped = true := by
  decide

/-- `true` when the sequence never invokes `pause` on a stopped timer. -/
def noPauseWhileStopped (pfx : Option (List Char)) : Timer → List TOp → Bool
  | _, [] => true
  | t, op :: rest =>
    (match op with
     | TOp.pause _ => !t.stopped
     | _ => true) && noPauseWhileStopped pfx (applyTOp pfx t op) rest

theorem tpause_not_stopped_step (pfx : Option (List Char)) (t : Timer) (op : TOp)
    (hinv : t.paused = true → t.stopped = false)
    (hguard : ∀ q : ℚ, op = TOp.pause q → t.stopped = false) :
    (applyTOp pfx t op).paused = true → (applyTOp pfx t op).stopped = false := by
  cases op with
  | start now => simp [applyTOp, Timer.start]
  | lap nameArg now => simpa [applyTOp, Timer.lap] using hinv
  | pause now =>
    by_cases hp : t.paused
    · simpa [applyTOp, Timer.pause, hp] using hinv
    · simpa [applyTOp, Timer.pause, hp] using hguard now rfl
  | resume now =>
    by_cases hp : t.paused <;> simp_all [applyTOp, Timer.resume]
  | stop nameArg now =>
    by_cases hs : t.stopped
    · simpa [applyTOp, Timer.stop, hs] using hinv
    · simp only [applyTOp, Timer.stop, hs, Bool.false_eq_true, if_false]
      by_cases hp : t.paused = true <;> simp [Timer.resume, hp]
  | wrapCall now =>
    by_cases hs : t.stopped
    · simpa [applyTOp, Timer.stop, hs] using hinv
    · simp only [applyTOp, Timer.stop, hs, Bool.false_eq_true, if_false]
      by_cases hp : t.paused = true <;> simp [Timer.resume, hp]

theorem tpause_not_stopped_run (pfx : Option (List Char)) (ops : List TOp) (t : Timer)
    (hinv : t.paused = true → t.stopped = false)
    (hseq : noPauseWhileStopped pfx t ops = true) :
    (runTOps pfx t ops).paused = true → (runTOps pfx t ops).stopped = false := by
  induction ops generalizing t with
  | nil => exact hinv
  | cons op rest ih =>
    simp only [noPauseWhileStopped, Bool.and_eq_true] at hseq
    refine ih (applyTOp pfx t op) (tpause_not_stopped_step pfx t op hinv ?_) hseq.2
    intro q hq
    subst hq
    simpa using hseq.1

/-- C3 amended: `paused → ¬stopped` holds in every state reachable from a
freshly constructed timer by sequences of operations that never call
`pause()` on an already-stopped timer (the code's `pause` checks only
`paused`, so pausing a stopped timer breaks the invariant; every other
operation preserves it). -/
theorem c3_amended (pfx : Option (List Char)) (nameArg : Option (List Char))
    (now : ℚ) (ops : List TOp)
    (hseq : noPauseWhileStopped pfx (Timer.new pfx nameArg now) ops = true) :
    (runTOps pfx (Timer.new pfx nameArg now) ops).paused = true →
      (runTOps pfx (Timer.new pfx nameArg now) ops).stopped = false := by
  refine tpause_not_stopped_run pfx ops _ ?_ hseq
  simp [Timer.new, Timer.start]

/-- Witness for `c3_amended` on a concrete compliant sequence. -/
theorem c3_amended_witness :
    noPauseWhileStopped none (Timer.new none (some (str "t")) 0)
        [TOp.pause 1, TOp.resume 2, TOp.stop none 3, TOp.wrapCall 4] = true ∧
    ((runTOps none (Timer.new none (some (str "t")) 0)
        [TOp.pause 1, TOp.resume 2, TOp.stop none 3, TOp.wrapCall 4]).paused = true →
      (runTOps none (Timer.new none (some (str "t")) 0)
        [TOp.pause 1, TOp.resume 2, TOp.stop none 3, TOp.wrapCall 4]).stopped = false) :=
  ⟨by decide,
   c3_amended none (some (str "t")) 0
     [TOp.pause 1, TOp.resume 2, TOp.stop none 3, TOp.wrapCall 4] (by decide)⟩

/-!  ## C4: `wrap`-produced callbacks -/

/-- C4 counterexample: the claim says a `wrap`-produced callback "returns
what f returns", but the wrapper body has no return statement: with a
callback returning `42`, the wrapper's return value is absent. -/
theorem c4_counterexample :
    ((Timer.new none (some (str "x")) 0).wrapInvoke
        (fun z : ℤ => z + 1) 41 5 none).wrapperRet ≠
      some ((fun z : ℤ => z + 1) 41) := by
  decide

/-- C4 amended: invoking a `wrap`-produced callback first calls `stop()`
with no explicit name (so the timer's own name is used for the single
histogram emission when set and not yet stopped), then invokes the
original callback with the argument forwarded unchanged — but the wrapper
discards the callback's return value and itself returns `undefined`. -/
theorem c4_amended {α β : Type} (t : Timer) (f : α → β) (args : α) (now : ℚ)
    (pfx : Option (List Char)) :
    (t.wrapInvoke f args now pfx).callbackArgs = args ∧
    (t.wrapInvoke f args now pfx).callbackRet = f args ∧
    (t.wrapInvoke f args now pfx).wrapperRet = none ∧
    (t.wrapInvoke f args now pfx).timer = (t.stop none now pfx).1 ∧
    (t.wrapInvoke f args now pfx).emissions = (t.stop none now pfx).2.2 ∧
    (t.stopped = false → (t.wrapInvoke f args now pfx).timer.stopped = true) ∧
    (∀ n, t.name = some n → t.stopped = false →
      ∃ v : ℤ, (t.wrapInvoke f args now pfx).emissions = [(n, v)]) := by
  refine ⟨rfl, rfl, rfl, rfl, rfl, ?_, ?_⟩
  · intro h
    simp only [Timer.wrapInvoke, Timer.stop, h, Bool.false_eq_true, if_false, format1]
    by_cases hp : t.paused = true <;> simp [Timer.resume, hp]
  · intro n hn h
    simp [Timer.wrapInvoke, Timer.stop, h, format1, hn]

/-- Witness for `c4_amended` at a concrete timer and callback. -/
theorem c4_amended_witness :
    ((Timer.new none (some (str "x")) 0).wrapInvoke
        (fun z : ℤ => z + 1) 41 5 none).callbackArgs = 41 ∧
    ((Timer.new none (some (str "x")) 0).wrapInvoke
        (fun z : ℤ => z + 1) 41 5 none).wrapperRet = none ∧
    ((Timer.new none (some (str "x")) 0).wrapInvoke
        (fun z : ℤ => z + 1) 41 5 none).timer.stopped = true ∧
    (∃ v : ℤ, ((Timer.new none (some (str "x")) 0).wrapInvoke
        (fun z : ℤ => z + 1) 41 5 none).emissions = [(str "x", v)]) := by
  obtain ⟨h1, _, h3, _, _, h6, h7⟩ :=
    c4_amended (Timer.new none (some (str "x")) 0) (fun z : ℤ => z + 1) 41 5 none
  exact ⟨h1, h3, h6 (by decide), h7 (str "x") (by decide) (by decide)⟩

/-!  ## C9: trailing-newline handling in `_send` -/

theorem getLastQ_concat_nl (ys : List Char) (x : Char) :
    (ys ++ [x]).getLast? = some x := by
  simp

theorem lastIndexOfNl_concat (l : List Char) (x : Char) :
    lastIndexOfNl (l ++ [x]) =
      if x = '\n' then some l.length else lastIndexOfNl l := by
  induction l with
  | nil => by_cases hx : x = '\n' <;> simp [lastIndexOfNl, hx]
  | cons c rest ih =>
    by_cases hx : x = '\n'
    · subst hx
      simp [lastIndexOfNl, ih]
    · simp [lastIndexOfNl, ih, hx]

theorem lastIndexOfNl_lt (l : List Char) (i : Nat) (h : lastIndexOfNl l = some i) :
    i < l.length := by
  induction l generalizing i with
  | nil => simp [lastIndexOfNl] at h
  | cons c rest ih =>
    simp only [lastIndexOfNl] at h
    simp only [List.length_cons]
    cases hrest : lastIndexOfNl rest with
    | some j =>
      rw [hrest] at h
      simp only [Option.some.injEq] at h
      subst h
      exact Nat.succ_lt_succ (ih j hrest)
    | none =>
      rw [hrest] at h
      by_cases hc : c = '\n'
      · simp [hc] at h
        omega
      · simp [hc] at h

theorem nlAdjust_ne_nl (l : List Char) (hne : l ≠ []) (hlast : l.getLast? ≠ some '\n') :
    nlAdjust l = l ++ ['\n'] := by
  obtain rfl | ⟨ys, x, rfl⟩ := List.eq_nil_or_concat' l
  · exact absurd rfl hne
  rw [getLastQ_concat_nl] at hlast
  have hx : x ≠ '\n' := fun h => hlast (by rw [h])
  have hidx : jsLastIndexOfNl (ys ++ [x]) ≠ ((ys ++ [x]).length : Int) - 1 := by
    simp only [jsLastIndexOfNl, lastIndexOfNl_concat, if_neg hx]
    cases hrest : lastIndexOfNl ys with
    | some j =>
      have hj := lastIndexOfNl_lt ys j hrest
      simp only [List.length_append, List.length_cons, List.length_nil]
      intro hcontra
      omega
    | none =>
      simp only [List.length_append, List.length_cons, List.length_nil]
      intro hcontra
      omega
  unfold nlAdjust
  rw [if_pos hidx]

theorem nlAdjust_ends_nl (l : List Char) (hlast : l.getLast? = some '\n') :
    nlAdjust l = l := by
  obtain rfl | ⟨ys, x, rfl⟩ := List.eq_nil_or_concat' l
  · simp at hlast
  rw [getLastQ_concat_nl] at hlast
  have hx : x = '\n' := by simpa using hlast
  have hidx : jsLastIndexOfNl (ys ++ [x]) = ((ys ++ [x]).length : Int) - 1 := by
    simp only [jsLastIndexOfNl, lastIndexOfNl_concat, if_pos hx,
      List.length_append, List.length_cons, List.length_nil]
    omega
  unfold nlAdjust
  rw [if_neg (not_not_intro hidx)]

theorem getLastQ_append_pair (x : List Char) (u v : Char) :
    (x ++ [u, v]).getLast? = some v := by
  have h : x ++ [u, v] = (x ++ [u]) ++ [v] := by simp
  rw [h, getLastQ_concat_nl]

/-- C9 counterexample: the empty string does not end with a line
terminator, yet `_send` transmits it unmodified — `lastIndexOf` returns
`-1`, which equals `"".length - 1`, so no newline is appended. -/
theorem c9_counterexample : nlAdjust (str "") ≠ str "" ++ ['\n'] := by
  decide

/-- C9 amended: for every NON-EMPTY string handed to the transmission
path, exactly one `"\n"` is appended when the string does not already end
with one, and the string is sent unmodified when it does; the empty string
(whose `lastIndexOf` of `-1` coincides with `length - 1`) is also sent
unmodified, with no newline appended. -/
theorem c9_amended (l : List Char) :
    (l ≠ [] →
      ((l.getLast? ≠ some '\n' → nlAdjust l = l ++ ['\n']) ∧
        (l.getLast? = some '\n' → nlAdjust l = l))) ∧
    nlAdjust [] = [] := by
  refine ⟨fun hne => ⟨nlAdjust_ne_nl l hne, nlAdjust_ends_nl l⟩, by decide⟩

/-- Witness for `c9_amended` at concrete strings. -/
theorem c9_amended_witness :
    nlAdjust (str "a:1|c") = str "a:1|c" ++ ['\n'] ∧
    nlAdjust (str "a:1|c\n") = str "a:1|c\n" :=
  ⟨((c9_amended (str "a:1|c")).1 (by decide)).1 (by decide),
   ((c9_amended (str "a:1|c\n")).1 (by decide)).2 (by decide)⟩

/-!  ## The formatting pipeline on plain names -/

/-- A plain name: no `%` character, so the placeholder heuristic of
`format` counts zero placeholders and `util.format` leaves it alone. -/
@[reducible]
def noPercent (l : List Char) : Prop := ∀ c ∈ l, c ≠ '%'

/-- A name containing no JS whitespace, left unchanged by sanitization. -/
@[reducible]
def noWs (l : List Char) : Prop := ∀ c ∈ l, isJsWhitespace c = false

theorem countPlaceholders_eq_zero (l : List Char) (h : noPercent l) :
    countPlaceholders l = 0 := by
  induction l with
  | nil => rfl
  | cons c rest ih =>
    have hc : c ≠ '%' := h c (by simp)
    rw [countPlaceholders.eq_def]
    simp only [if_neg hc]
    exact ih (fun x hx => h x (by simp [hx]))

theorem utilFormatAux_no_percent (l : List Char) (args : List (List Char))
    (h : noPercent l) : utilFormatAux l args = (l, args) := by
  induction l with
  | nil => rfl
  | cons c rest ih =>
    have hc : c ≠ '%' := h c (by simp)
    rw [utilFormatAux.eq_def]
    simp only [if_neg hc, ih (fun x hx => h x (by simp [hx]))]

theorem utilFormat_no_percent (l : List Char) (h : noPercent l) :
    utilFormat l [] = l := by
  simp [utilFormat, utilFormatAux_no_percent l [] h]

theorem sanitize_no_ws (l : List Char) (h : noWs l) : sanitize l = l := by
  induction l with
  | nil => rfl
  | cons c rest ih =>
    have hc := h c (by simp)
    simp only [sanitize, List.map_cons, sanitizeChar, hc, Bool.false_eq_true,
      if_false, List.cons.injEq, true_and]
    exact ih (fun x hx => h x (by simp [hx]))

/-- On a nonempty `%`-free name, `format("%s:...", [name, value])` reduces
to `util.format` of the prefixed, sanitized name and the value. -/
theorem format2_plain (pfx : Option (List Char)) (fmt name : List Char) (v : ℤ)
    (hne : name ≠ []) (h : noPercent name) :
    format2 pfx fmt name v =
      utilFormat fmt [sanitize (prefixApply pfx name), intStr v] := by
  unfold format2
  rw [countPlaceholders_eq_zero name h]
  simp [utilFormat_no_percent name h, formatMetricName, hne, jsStr]

/-- Evaluation of the update formats `"%s:%s|c"`, `"%s:%s|g"`, `"%s:%s|h"`
on two arguments. -/
theorem utilFormat_update_fmt (k : Char) (a b : List Char) :
    utilFormat ('%' :: 's' :: ':' :: '%' :: 's' :: '|' :: k :: []) [a, b] =
      a ++ ':' :: (b ++ ['|', k]) := by
  by_cases hk : k = '%'
  · subst hk
    simp [utilFormat, utilFormatAux]
  · simp [utilFormat, utilFormatAux, hk]

theorem counterUpdateLine_plain (pfx : Option (List Char)) (name : List Char) (v : ℤ)
    (hne : name ≠ []) (h : noPercent name) :
    counterUpdateLine pfx name v =
      sanitize (prefixApply pfx name) ++ ':' :: (intStr v ++ ['|', 'c']) := by
  unfold counterUpdateLine
  rw [show str "%s:%s|c" = '%' :: 's' :: ':' :: '%' :: 's' :: '|' :: 'c' :: [] from rfl,
    format2_plain pfx _ name v hne h, utilFormat_update_fmt]

theorem getSocketM_sent (s : MState) (now : ℚ) : (getSocketM s now).sent = s.sent := by
  unfold getSocketM
  by_cases hp : s.providedSocket = true <;> by_cases he : s.ephemeral = true <;>
    simp [hp, he]

theorem writeM_sent (s : MState) (m : List Char) (now : ℚ) (he : s.enabled = true) :
    (writeM s m now).sent = s.sent ++ [nlAdjust m] := by
  unfold writeM sendM
  rw [if_pos he]
  by_cases hl : s.log = true <;> simp [hl, getSocketM_sent]

/-- `nlAdjust` on an update line, whose last character is the kind tag. -/
theorem nlAdjust_update_line (a b : List Char) (k : Char) (hk : k ≠ '\n') :
    nlAdjust (a ++ ':' :: (b ++ ['|', k])) = (a ++ ':' :: (b ++ ['|', k])) ++ ['\n'] := by
  refine nlAdjust_ne_nl _ (by simp) ?_
  rw [show a ++ ':' :: (b ++ ['|', k]) = (a ++ ':' :: b) ++ ['|', k] by simp,
    getLastQ_append_pair]
  simp [hk]

/-- The transmitted effect of `updateCounter` on a plain nonempty name. -/
theorem updateCounterM_sent (s : MState) (name : List Char) (v : ℤ) (now : ℚ)
    (he : s.enabled = true) (hne : name ≠ []) (h : noPercent name) :
    (updateCounterM s name v now).sent =
      s.sent ++
        [(sanitize (prefixApply s.pfx name) ++ ':' :: (intStr v ++ ['|', 'c'])) ++ ['\n']] := by
  unfold updateCounterM
  rw [writeM_sent s _ now he, counterUpdateLine_plain s.pfx name v hne h,
    nlAdjust_update_line _ _ 'c' (by decide)]

/-!  ## C5: the `updateCounter` wire line -/

/-- Collapse every whitespace RUN into a single underscore (the flag says
whether the previous character was whitespace). -/
def collapseWsAux : Bool → List Char → List Char
  | _, [] => []
  | prevWs, c :: rest =>
    if isJsWhitespace c then
      if prevWs then collapseWsAux true rest
      else '_' :: collapseWsAux true rest
    else c :: collapseWsAux false rest

/-- Modelled from the spec: the line claim C5 predicts for
`updateCounter(name, v)` — the prefixed name with every whitespace run
replaced by a single underscore, then `:v|c`. -/
def specCounterLineC5 (pfx : Option (List Char)) (name : List Char) (v : ℤ) : List Char :=
  collapseWsAux false (prefixApply pfx name) ++ ':' :: (intStr v ++ ['|', 'c'])

/-- C5 counterexample: on the name `"a  b"` (two spaces) the code replaces
EACH whitespace character by an underscore (`a__b:1|c`), not each
whitespace run by a single underscore (`a_b:1|c`) as the claim states. -/
theorem c5_counterexample :
    (updateCounterM (metricsInit none true false 1000 false) (str "a  b") 1 0).sent ≠
      [specCounterLineC5 none (str "a  b") 1 ++ ['\n']] := by
  decide

/-- C5 amended: with the library enabled, for every nonempty `%`-free name
and every value, `updateCounter(name, v)` transmits exactly one datagram,
`name:v|c` plus the trailing newline, where the name part is
`prefix + "." + name` when a prefix is configured and every whitespace
CHARACTER (not run) is replaced by one underscore. -/
theorem c5_amended (s : MState) (name : List Char) (v : ℤ) (now : ℚ)
    (he : s.enabled = true) (hne : name ≠ []) (h : noPercent name) :
    (updateCounterM s name v now).sent =
      s.sent ++
        [(sanitize (prefixApply s.pfx name) ++ ':' :: (intStr v ++ ['|', 'c'])) ++ ['\n']] :=
  updateCounterM_sent s name v now he hne h

/-- Witness for `c5_amended` at a concrete state and name. -/
theorem c5_amended_witness :
    (updateCounterM (metricsInit (some (str "pre")) true false 1000 false)
        (str "a b") 7 0).sent =
      (metricsInit (some (str "pre")) true false 1000 false).sent ++
        [(sanitize (prefixApply (metricsInit (some (str "pre")) true false 1000 false).pfx
            (str "a b")) ++ ':' :: (intStr 7 ++ ['|', 'c'])) ++ ['\n']] :=
  c5_amended (metricsInit (some (str "pre")) true false 1000 false) (str "a b") 7 0
    (by decide) (by decide) (by decide)

/-!  ## C10: double prefixing through instance methods -/

theorem noWs_glue (p raw : List Char) (hp : noWs p) (hraw : noWs raw) :
    noWs (p ++ '.' :: raw) := by
  intro c hc
  rcases List.mem_append.1 hc with h1 | h1
  · exact hp c h1
  · rcases List.mem_cons.1 h1 with rfl | h2
    · decide
    · exact hraw c h2

theorem noPercent_glue (p raw : List Char) (hp : noPercent p) (hraw : noPercent raw) :
    noPercent (p ++ '.' :: raw) := by
  intro c hc
  rcases List.mem_append.1 hc with h1 | h1
  · exact hp c h1
  · rcases List.mem_cons.1 h1 with rfl | h2
    · decide
    · exact hraw c h2

/-- C10: with a configured prefix `p`, a directly constructed `Counter`
stores the once-prefixed name `p ++ "." ++ raw`, and `Counter.inc` routes
that stored name through the formatting pipeline again, so the
transmitted line carries `p ++ "." ++ p ++ "." ++ raw` — which differs
from the once-prefixed name. -/
theorem c10_double_prefix (p raw : List Char) (s : MState) (v : ℤ) (now : ℚ)
    (hpne : p ≠ []) (hrawne : raw ≠ [])
    (hp1 : noPercent p) (hraw1 : noPercent raw)
    (hp2 : noWs p) (hraw2 : noWs raw)
    (hpfx : s.pfx = some p) (he : s.enabled = true) :
    counterNew (some p) (some raw) = Except.ok (p ++ '.' :: raw) ∧
    (counterIncM s (p ++ '.' :: raw) v now).sent =
      s.sent ++
        [((p ++ '.' :: (p ++ '.' :: raw)) ++
            ':' :: (intStr (if v = 0 then 1 else v) ++ ['|', 'c'])) ++ ['\n']] ∧
    p ++ '.' :: (p ++ '.' :: raw) ≠ p ++ '.' :: raw := by
  have hstored : prefixApply (some p) raw = p ++ '.' :: raw := by
    simp [prefixApply, hpne]
  refine ⟨?_, ?_, ?_⟩
  · unfold counterNew format1
    simp only [Option.bind, formatMetricName, if_neg hrawne, hstored,
      sanitize_no_ws _ (noWs_glue p raw hp2 hraw2)]
  · rw [counterIncM,
      updateCounterM_sent s (p ++ '.' :: raw) (if v = 0 then 1 else v) now he
        (by simp) (noPercent_glue p raw hp1 hraw1),
      hpfx]
    have happ : prefixApply (some p) (p ++ '.' :: raw) = p ++ '.' :: (p ++ '.' :: raw) := by
      simp [prefixApply, hpne]
    rw [happ, sanitize_no_ws _ (noWs_glue p (p ++ '.' :: raw) hp2
      (noWs_glue p raw hp2 hraw2))]
  · intro hcontra
    have hlen := congrArg List.length hcontra
    simp only [List.length_append, List.length_cons] at hlen
    have hppos : 0 < p.length := List.length_pos.mpr hpne
    omega

/-- Witness for `c10_double_prefix` at prefix `"prod"` and name `"x"`. -/
theorem c10_double_prefix_witness :
    counterNew (some (str "prod")) (some (str "x"))
        = Except.ok (str "prod" ++ '.' :: str "x") ∧
    (counterIncM (metricsInit (some (str "prod")) true false 1000 false)
        (str "prod" ++ '.' :: str "x") 1 0).sent =
      (metricsInit (some (str "prod")) true false 1000 false).sent ++
        [((str "prod" ++ '.' :: (str "prod" ++ '.' :: str "x")) ++
            ':' :: (intStr (if (1 : ℤ) = 0 then 1 else 1) ++ ['|', 'c'])) ++ ['\n']] ∧
    str "prod" ++ '.' :: (str "prod" ++ '.' :: str "x") ≠ str "prod" ++ '.' :: str "x" :=
  c10_double_prefix (str "prod") (str "x")
    (metricsInit (some (str "prod")) true false 1000 false) 1 0
    (by decide) (by decide) (by decide) (by decide) (by decide) (by decide)
    (by decide) (by decide)

/-!  ## C8: name-required errors and the catching facades -/

/-- C8: whenever the argument resolves to an empty or absent name, each
direct named-entity constructor throws `"a name is required"`, while each
facade convenience factory catches the error and returns an absent
value. -/
theorem c8_name_required (pfx : Option (List Char)) (arg : Option (List Char))
    (h : format1 pfx arg = none) :
    counterNew pfx arg = Except.error (str "a name is required") ∧
    gaugeNew pfx arg = Except.error (str "a name is required") ∧
    histogramNew pfx arg = Except.error (str "a name is required") ∧
    meterNew pfx arg = Except.error (str "a name is required") ∧
    countFacade pfx arg = none ∧
    gaugeFacade pfx arg = none ∧
    histogramFacade pfx arg = none ∧
    meterFacade pfx arg = none := by
  have h' : arg.bind (formatMetricName pfx) = none := h
  refine ⟨?_, ?_, ?_, ?_, ?_, ?_, ?_, ?_⟩ <;>
    simp [counterNew, gaugeNew, histogramNew, meterNew, countFacade, gaugeFacade,
      histogramFacade, meterFacade, format1, h']

/-- Witness for `c8_name_required` at an empty name with a prefix set. -/
theorem c8_name_required_witness :
    counterNew (some (str "p")) (some []) = Except.error (str "a name is required") ∧
    gaugeNew (some (str "p")) (some []) = Except.error (str "a name is required") ∧
    histogramNew (some (str "p")) (some []) = Except.error (str "a name is required") ∧
    meterNew (some (str "p")) (some []) = Except.error (str "a name is required") ∧
    countFacade (some (str "p")) (some []) = none ∧
    gaugeFacade (some (str "p")) (some []) = none ∧
    histogramFacade (some (str "p")) (some []) = none ∧
    meterFacade (some (str "p")) (some []) = none :=
  c8_name_required (some (str "p")) (some []) (by decide)

/-!  ## C6: a disabled instance is silent -/

/-- One public metric-emitting (or toggling) call of the facade. -/
inductive MOp where
  | write (m : List Char) (now : ℚ)
  | updateCounter (n : List Char) (v : ℤ) (now : ℚ)
  | updateGauge (n : List Char) (v : ℤ) (now : ℚ)
  | updateHistogram (n : List Char) (v : ℤ) (now : ℚ)
  | deleteCounter (n : List Char) (now : ℚ)
  | deleteGauge (n : List Char) (now : ℚ)
  | deleteHistogram (n : List Char) (now : ℚ)
  | deleteMeter (n : List Char) (now : ℚ)
  | mark (n : Option (List Char)) (now : ℚ)
  | inc (n : List Char) (v : ℤ) (now : ℚ)
  | dec (n : List Char) (v : ℤ) (now : ℚ)
  | setEnabled (b : Bool)
  | close
deriving DecidableEq

def applyMOp (s : MState) : MOp → MState
  | MOp.write m now => writeM s m now
  | MOp.updateCounter n v now => updateCounterM s n v now
  | MOp.updateGauge n v now => updateGaugeM s n v now
  | MOp.updateHistogram n v now => updateHistogramM s n v now
  | MOp.deleteCounter n now => deleteCounterM s n now
  | MOp.deleteGauge n now => deleteGaugeM s n now
  | MOp.deleteHistogram n now => deleteHistogramM s n now
  | MOp.deleteMeter n now => deleteMeterM s n now
  | MOp.mark n now => markM s n now
  | MOp.inc n v now => incM s n v now
  | MOp.dec n v now => decM s n v now
  | MOp.setEnabled b => { s with enabled := b }
  | MOp.close => apiCloseM s

def isSetEnabledTrue : MOp → Bool
  | MOp.setEnabled true => true
  | _ => false

def runMOps (s : MState) (ops : List MOp) : MState :=
  ops.foldl applyMOp s

theorem disabled_step (s : MState) (op : MOp) (hd : s.enabled = false)
    (hop : isSetEnabledTrue op = false) :
    (applyMOp s op).enabled = false ∧ (applyMOp s op).sent = s.sent ∧
    (applyMOp s op).logged = s.logged ∧
    ((applyMOp s op).ephemeral = true → s.ephemeral = true) := by
  cases op with
  | write m now => simp [applyMOp, writeM, hd]
  | updateCounter n v now => simp [applyMOp, updateCounterM, writeM, hd]
  | updateGauge n v now => simp [applyMOp, updateGaugeM, writeM, hd]
  | updateHistogram n v now => simp [applyMOp, updateHistogramM, writeM, hd]
  | deleteCounter n now => simp [applyMOp, deleteCounterM, writeM, hd]
  | deleteGauge n now => simp [applyMOp, deleteGaugeM, writeM, hd]
  | deleteHistogram n now => simp [applyMOp, deleteHistogramM, writeM, hd]
  | deleteMeter n now => simp [applyMOp, deleteMeterM, writeM, hd]
  | mark n now =>
    cases hfmt : format1 s.pfx n with
    | some nm => simp [applyMOp, markM, hfmt, writeM, hd]
    | none => simp [applyMOp, markM, hfmt, hd]
  | inc n v now => simp [applyMOp, incM, updateCounterM, writeM, hd]
  | dec n v now => simp [applyMOp, decM, updateCounterM, writeM, hd]
  | setEnabled b =>
    cases b with
    | false => simp [applyMOp]
    | true => simp [isSetEnabledTrue] at hop
  | close =>
    unfold applyMOp apiCloseM closeSocketM removeTimerM
    by_cases h1 : s.ephemeral = true <;> by_cases h2 : s.gcTimer = true <;>
      simp [h1, h2, hd]

/-- C6: from any state with `enabled = false`, no sequence of calls that
does not set `enabled` back to `true` ever transmits a line, writes to the
log sink, or creates the ephemeral connection (it can only be closed), and
the instance stays disabled. -/
theorem c6_disabled_silent :
    ∀ (ops : List MOp) (s : MState), s.enabled = false →
      ops.all (fun op => !(isSetEnabledTrue op)) = true →
      (runMOps s ops).sent = s.sent ∧ (runMOps s ops).logged = s.logged ∧
      ((runMOps s ops).ephemeral = true → s.ephemeral = true) ∧
      (runMOps s ops).enabled = false := by
  intro ops
  induction ops with
  | nil => exact fun s hd _ => ⟨rfl, rfl, fun h => h, hd⟩
  | cons op rest ih =>
    intro s hd hops
    rw [List.all_cons, Bool.and_eq_true] at hops
    obtain ⟨hop0, hrest⟩ := hops
    have hop : isSetEnabledTrue op = false := by
      cases hiop : isSetEnabledTrue op
      · rfl
      · rw [hiop] at hop0
        exact absurd hop0 (by decide)
    obtain ⟨he1, hs1, hl1, hb1⟩ := disabled_step s op hd hop
    obtain ⟨ha, hb, hc, hdres⟩ := ih (applyMOp s op) he1 hrest
    have hrun : runMOps s (op :: rest) = runMOps (applyMOp s op) rest := rfl
    rw [hrun]
    exact ⟨ha.trans hs1, hb.trans hl1, fun h => hb1 (hc h), hdres⟩

/-- Witness for `c6_disabled_silent`: a disabled instance (with logging on)
runs a batch of calls and neither sends, logs, creates a socket, nor
re-enables itself. -/
theorem c6_disabled_silent_witness :
    (runMOps (metricsInit none false true 1000 false)
        [MOp.write (str "x") 0, MOp.updateCounter (str "n") 1 1,
          MOp.mark (some (str "m")) 2, MOp.setEnabled false, MOp.close]).sent =
      (metricsInit none false true 1000 false).sent ∧
    (runMOps (metricsInit none false true 1000 false)
        [MOp.write (str "x") 0, MOp.updateCounter (str "n") 1 1,
          MOp.mark (some (str "m")) 2, MOp.setEnabled false, MOp.close]).logged =
      (metricsInit none false true 1000 false).logged ∧
    ((runMOps (metricsInit none false true 1000 false)
        [MOp.write (str "x") 0, MOp.updateCounter (str "n") 1 1,
          MOp.mark (some (str "m")) 2, MOp.setEnabled false, MOp.close]).ephemeral = true →
      (metricsInit none false true 1000 false).ephemeral = true) ∧
    (runMOps (metricsInit none false true 1000 false)
        [MOp.write (str "x") 0, MOp.updateCounter (str "n") 1 1,
          MOp.mark (some (str "m")) 2, MOp.setEnabled false, MOp.close]).enabled = false :=
  c6_disabled_silent
    [MOp.write (str "x") 0, MOp.updateCounter (str "n") 1 1,
      MOp.mark (some (str "m")) 2, MOp.setEnabled false, MOp.close]
    (metricsInit none false true 1000 false) (by decide) (by decide)

/-!  ## C7: the forced-close timer -/

/-- C7 counterexample: firing the forced close on a freshly used instance
(socket and gc interval both live) closes the ephemeral connection but
leaves the recurring idle-check interval RUNNING, contradicting the
claim that the interval is cancelled. -/
theorem c7_counterexample :
    (fireForcedClose
        (writeM (metricsInit none true false 1000 false) (str "x") 0)).ephemeral = false ∧
    (fireForcedClose
        (writeM (metricsInit none true false 1000 false) (str "x") 0)).gcTimer = true := by
  decide

/-- C7 amended: the forced close is scheduled at creation for
`10 * timeout` after the creating call, and when it fires it
unconditionally closes the ephemeral connection — regardless of
`lastUse` — and clears the forced-close handle, but does NOT cancel the
recurring idle-check interval (that is cleared only by the idle check
itself or by `close()`). -/
theorem c7_amended (s : MState) (now : ℚ) :
    (s.providedSocket = false → s.ephemeral = false →
      (getSocketM s now).closeTimeout = some (now + 10 * s.timeout)) ∧
    (s.ephemeral = true →
      ((fireForcedClose s).ephemeral = false ∧
        (fireForcedClose s).closeTimeout = none ∧
        (fireForcedClose s).gcTimer = s.gcTimer ∧
        (fireForcedClose s).sent = s.sent)) := by
  constructor
  · intro h1 h2
    simp [getSocketM, h1, h2]
  · intro h
    simp [fireForcedClose, closeSocketM, h]

/-- Witness for `c7_amended` at concrete states. -/
theorem c7_amended_witness :
    (getSocketM (metricsInit none true false 1000 false) 0).closeTimeout
        = some (0 + 10 * (metricsInit none true false 1000 false).timeout) ∧
    ((fireForcedClose
        (writeM (metricsInit none true false 1000 false) (str "x") 0)).ephemeral = false ∧
      (fireForcedClose
        (writeM (metricsInit none true false 1000 false) (str "x") 0)).closeTimeout = none ∧
      (fireForcedClose
          (writeM (metricsInit none true false 1000 false) (str "x") 0)).gcTimer =
        (writeM (metricsInit none true false 1000 false) (str "x") 0).gcTimer ∧
      (fireForcedClose
          (writeM (metricsInit none true false 1000 false) (str "x") 0)).sent =
        (writeM (metricsInit none true false 1000 false) (str "x") 0).sent) :=
  ⟨(c7_amended (metricsInit none true false 1000 false) 0).1 (by decide) (by decide),
   (c7_amended (writeM (metricsInit none true false 1000 false) (str "x") 0) 0).2
     (by decide)⟩

end Metricsd
